import Mathlib

/-!
Verification of the Contact Directory component: the ownership-scoped
query/mutation logic of `src/repository/contacts.py`, with the data model of
`src/database/models.py` and `src/schemas.py`.

The Contact Store is modelled as a `List Contact` (store-native order =
list order); the SQLAlchemy session is modelled by explicit state passing:
each mutating operation returns the new store alongside its result.
`None` results of the Python functions become `Option.none`; a raised
`ValueError` from `datetime(...)` construction becomes the `fault`
constructor of `BdayResult`.
-/

namespace ContactDir

/-- A calendar date, as Python's `datetime.date` triple. -/
structure Date where
  year : Nat
  month : Nat
  day : Nat
deriving Repr, DecidableEq

/-- Gregorian leap-year rule, as Python's `calendar.isleap`. -/
def isLeap (y : Nat) : Bool :=
  y % 4 == 0 && (y % 100 != 0 || y % 400 == 0)

/-- Days in a month of a given year, as CPython's `days_in_month`. -/
def daysInMonth (y m : Nat) : Nat :=
  if m = 2 then (if isLeap y then 29 else 28)
  else if m = 4 ∨ m = 6 ∨ m = 9 ∨ m = 11 then 30
  else 31

/-- `datetime(y, m, d)` construction: validates month and day ranges and
raises `ValueError` (here: `none`) outside them. -/
def mkDate (y m d : Nat) : Option Date :=
  if 1 ≤ m ∧ m ≤ 12 ∧ 1 ≤ d ∧ d ≤ daysInMonth y m then some ⟨y, m, d⟩ else none

/-- Python `date` comparison: lexicographic on (year, month, day). -/
def dateLe (a b : Date) : Bool :=
  a.year < b.year ||
    (a.year == b.year &&
      (a.month < b.month || (a.month == b.month && a.day ≤ b.day)))

/-- `today + timedelta(days=6)`, for a valid `today`: roll the day past the
month end at most once. -/
def addDays6 (d : Date) : Date :=
  let d6 := d.day + 6
  if d6 ≤ daysInMonth d.year d.month then ⟨d.year, d.month, d6⟩
  else if d.month = 12 then ⟨d.year + 1, 1, d6 - 31⟩
  else ⟨d.year, d.month + 1, d6 - daysInMonth d.year d.month⟩

/-- A row of the `contacts` table (`src/database/models.py`): integer id,
six data fields, and the owning account's id (`user_id` foreign key). -/
structure Contact where
  id : Nat
  name : String
  lastname : String
  email : String
  phone : String
  born_date : Date
  description : String
  user_id : Nat
deriving Repr, DecidableEq

/-- A validated `ContactModel` payload (`src/schemas.py`): the six data
fields, without id or owner. -/
structure ContactModel where
  name : String
  lastname : String
  email : String
  phone : String
  born_date : Date
  description : String
deriving Repr, DecidableEq

/-- The autoincrement primary key: one more than the largest id in use. -/
def nextId (db : List Contact) : Nat :=
  (db.foldr (fun c acc => max c.id acc) 0) + 1

/-- `create_contact`: persist a new row carrying the payload's fields,
bound to `uid`, with a freshly assigned id; return the row and the new
store. -/
def create_contact (m : ContactModel) (uid : Nat) (db : List Contact) :
    Contact × List Contact :=
  let new : Contact :=
    { id := nextId db, name := m.name, lastname := m.lastname,
      email := m.email, phone := m.phone, born_date := m.born_date,
      description := m.description, user_id := uid }
  (new, db ++ [new])

/-- `get_contacts`: every row whose owner is `uid`, in store order. -/
def get_contacts (uid : Nat) (db : List Contact) : List Contact :=
  db.filter (fun c => c.user_id == uid)

/-- `get_contact`: first row matching both the id and the owner
(`filter(and_(Contact.id == contact_id, Contact.user_id == user.id)).first()`),
`none` when there is no such row. -/
def get_contact (cid uid : Nat) (db : List Contact) : Option Contact :=
  db.find? (fun c => c.id == cid && c.user_id == uid)

/-- The field-by-field truthiness merge of `update_contact`: each `if field:`
guard overwrites only when the supplied string is non-empty (for `born_date`,
whose route default is `None`: only when a value is present). -/
def applyUpdate (c : Contact) (name lastname email phone : String)
    (born_date : Option Date) (description : String) : Contact :=
  { c with
    name := if name ≠ "" then name else c.name,
    lastname := if lastname ≠ "" then lastname else c.lastname,
    email := if email ≠ "" then email else c.email,
    phone := if phone ≠ "" then phone else c.phone,
    born_date := match born_date with | some d => d | none => c.born_date,
    description := if description ≠ "" then description else c.description }

/-- `update_contact`: locate the first row matching (cid, uid); if absent
return `none` with the store untouched; otherwise mutate that row in place
by the truthiness merge and return it. -/
def update_contact (cid uid : Nat) (db : List Contact)
    (name lastname email phone : String) (born_date : Option Date)
    (description : String) : Option Contact × List Contact :=
  match db with
  | [] => (none, [])
  | c :: rest =>
    if c.id == cid && c.user_id == uid then
      let c' := applyUpdate c name lastname email phone born_date description
      (some c', c' :: rest)
    else
      let r := update_contact cid uid rest name lastname email phone born_date description
      (r.1, c :: r.2)

/-- `delete_contact`: locate the first row matching (cid, uid); if absent
return `none` with the store untouched; otherwise remove that row and
return its value. -/
def delete_contact (cid uid : Nat) (db : List Contact) :
    Option Contact × List Contact :=
  match db with
  | [] => (none, [])
  | c :: rest =>
    if c.id == cid && c.user_id == uid then (some c, rest)
    else
      let r := delete_contact cid uid rest
      (r.1, c :: r.2)

/-- `search_data`: priority-ordered single-criterion lookup scoped to `uid`:
name first, else lastname, else email; `none` when no criterion is supplied
or the selected one has no match. -/
def search_data (uid : Nat) (db : List Contact)
    (name lastname email : String) : Option Contact :=
  if name ≠ "" then
    db.find? (fun c => c.name == name && c.user_id == uid)
  else if lastname ≠ "" then
    db.find? (fun c => c.lastname == lastname && c.user_id == uid)
  else if email ≠ "" then
    db.find? (fun c => c.email == email && c.user_id == uid)
  else
    none

/-- Outcome of `birthday_to_week`: a raised `ValueError` from the
`datetime(...)` re-anchoring, the bare `return` (Python `None`) when the
owner has no contacts, or the assembled list. -/
inductive BdayResult where
  | fault : BdayResult
  | noContacts : BdayResult
  | ok : List Contact → BdayResult
deriving Repr, DecidableEq

/-- The accumulation loop of `birthday_to_week`: for each owned row,
re-anchor the stored month/day to the current year via `datetime(...)`
(which may raise) and keep the row when the result lies in
`[today, today + 6 days]`. -/
def birthdayLoop (today week : Date) : List Contact → Option (List Contact)
  | [] => some []
  | c :: rest =>
    match mkDate today.year c.born_date.month c.born_date.day with
    | none => none
    | some bday =>
      match birthdayLoop today week rest with
      | none => none
      | some tail =>
        some (if dateLe today bday && dateLe bday week then c :: tail else tail)

/-- `birthday_to_week`: fetch the owner's rows (the same owner-filter query
as `get_contacts`); with none, return the no-contacts sentinel; otherwise run
the window loop over them. -/
def birthday_to_week (uid : Nat) (db : List Contact) (today : Date) :
    BdayResult :=
  if (get_contacts uid db).isEmpty then .noContacts
  else
    match birthdayLoop today (addDays6 today) (get_contacts uid db) with
    | none => .fault
    | some happy => .ok happy

/-- The membership test the window loop applies to a single row: its
re-anchored birthday constructs and lies in `[today, today + 6 days]`. -/
def inWindow (today : Date) (c : Contact) : Bool :=
  match mkDate today.year c.born_date.month c.born_date.day with
  | none => false
  | some bday => dateLe today bday && dateLe bday (addDays6 today)

/-- The stored (month, day) pair re-anchors to a constructible date of
year `y`. -/
def validReanchor (y : Nat) (c : Contact) : Prop :=
  (mkDate y c.born_date.month c.born_date.day).isSome

/-- Primary-key integrity of the Contact Store: ids are pairwise distinct. -/
def IdsUnique (db : List Contact) : Prop :=
  (db.map (fun c => c.id)).Nodup

instance (y : Nat) (c : Contact) : Decidable (validReanchor y c) := by
  unfold validReanchor; infer_instance

instance (db : List Contact) : Decidable (IdsUnique db) := by
  unfold IdsUnique; infer_instance

/-! ### Sample store contents used by the witnesses -/

/-- Sample contact of owner 1, born June 3. -/
def ann : Contact :=
  { id := 1, name := "Ann", lastname := "Lee", email := "ann@ex.com",
    phone := "+380501112233", born_date := ⟨1990, 6, 3⟩, description := "",
    user_id := 1 }

/-- Sample contact of owner 1, born June 10. -/
def bob : Contact :=
  { id := 2, name := "Bob", lastname := "Roe", email := "bob@ex.com",
    phone := "+380501112234", born_date := ⟨1985, 6, 10⟩, description := "x",
    user_id := 1 }

/-- Sample contact of owner 2, born December 25. -/
def eve : Contact :=
  { id := 3, name := "Eve", lastname := "Day", email := "eve@ex.com",
    phone := "+380501112235", born_date := ⟨1999, 12, 25⟩, description := "",
    user_id := 2 }

/-- Sample contact of owner 1 named Bill. -/
def bill : Contact :=
  { id := 4, name := "Bill", lastname := "Smith", email := "bill@ex.com",
    phone := "+380501112236", born_date := ⟨1970, 1, 15⟩, description := "",
    user_id := 1 }

/-- Sample contact of owner 1 born on February 29 of a leap year. -/
def feb29 : Contact :=
  { id := 5, name := "Feb", lastname := "Leap", email := "feb@ex.com",
    phone := "+380501112237", born_date := ⟨2000, 2, 29⟩, description := "",
    user_id := 1 }

/-- A three-owner sample store. -/
def sampleDb : List Contact := [ann, bob, eve]

/-! ### Helper lemmas about the store model -/

theorem IdsUnique.eq_of_id_eq {db : List Contact} (h : IdsUnique db)
    {a b : Contact} (ha : a ∈ db) (hb : b ∈ db) (hid : a.id = b.id) : a = b :=
  List.inj_on_of_nodup_map h ha hb hid

theorem id_lt_nextId {db : List Contact} {c : Contact} (h : c ∈ db) :
    c.id < nextId db := by
  have hle : c.id ≤ db.foldr (fun c acc => max c.id acc) 0 := by
    induction db with
    | nil => cases h
    | cons a rest ih =>
      rcases List.mem_cons.mp h with rfl | hm
      · exact Nat.le_max_left _ _
      · exact le_trans (ih hm) (Nat.le_max_right _ _)
  exact Nat.lt_succ_of_le hle

theorem get_contact_eq_none {cid uid : Nat} {db : List Contact} :
    get_contact cid uid db = none ↔
      ∀ c ∈ db, ¬(c.id = cid ∧ c.user_id = uid) := by
  rw [get_contact, List.find?_eq_none]
  simp

theorem get_contact_split {cid uid : Nat} {db : List Contact} {c : Contact}
    (h : get_contact cid uid db = some c) :
    c.id = cid ∧ c.user_id = uid ∧
      ∃ pre post, db = pre ++ c :: post ∧
        ∀ x ∈ pre, (x.id == cid && x.user_id == uid) = false := by
  rw [get_contact, List.find?_eq_some] at h
  obtain ⟨hp, pre, post, hdb, hpre⟩ := h
  simp only [Bool.and_eq_true, beq_iff_eq] at hp
  refine ⟨hp.1, hp.2, pre, post, hdb, fun x hx => ?_⟩
  have hx' := hpre x hx
  rwa [Bool.not_eq_true'] at hx'

theorem update_contact_of_not_found (cid uid : Nat) (db : List Contact)
    (nm ln em ph : String) (bd : Option Date) (ds : String)
    (h : get_contact cid uid db = none) :
    update_contact cid uid db nm ln em ph bd ds = (none, db) := by
  induction db with
  | nil => rfl
  | cons a rest ih =>
    rw [get_contact_eq_none] at h
    have ha : (a.id == cid && a.user_id == uid) = false := by
      have := h a (List.mem_cons_self a rest)
      simpa using this
    have hrest : get_contact cid uid rest = none := by
      rw [get_contact_eq_none]
      exact fun x hx => h x (List.mem_cons_of_mem a hx)
    simp [update_contact, ha, ih hrest]

theorem delete_contact_of_not_found (cid uid : Nat) (db : List Contact)
    (h : get_contact cid uid db = none) :
    delete_contact cid uid db = (none, db) := by
  induction db with
  | nil => rfl
  | cons a rest ih =>
    rw [get_contact_eq_none] at h
    have ha : (a.id == cid && a.user_id == uid) = false := by
      have := h a (List.mem_cons_self a rest)
      simpa using this
    have hrest : get_contact cid uid rest = none := by
      rw [get_contact_eq_none]
      exact fun x hx => h x (List.mem_cons_of_mem a hx)
    simp [delete_contact, ha, ih hrest]

theorem update_contact_append (cid uid : Nat) (pre post : List Contact)
    (c : Contact) (nm ln em ph : String) (bd : Option Date) (ds : String)
    (hpre : ∀ x ∈ pre, (x.id == cid && x.user_id == uid) = false)
    (hc : (c.id == cid && c.user_id == uid) = true) :
    update_contact cid uid (pre ++ c :: post) nm ln em ph bd ds =
      (some (applyUpdate c nm ln em ph bd ds),
       pre ++ applyUpdate c nm ln em ph bd ds :: post) := by
  induction pre with
  | nil => simp [update_contact, hc]
  | cons a pre ih =>
    have ha := hpre a (List.mem_cons_self a pre)
    have ih' := ih (fun x hx => hpre x (List.mem_cons_of_mem a hx))
    simp [update_contact, ha, ih']

theorem delete_contact_append (cid uid : Nat) (pre post : List Contact)
    (c : Contact)
    (hpre : ∀ x ∈ pre, (x.id == cid && x.user_id == uid) = false)
    (hc : (c.id == cid && c.user_id == uid) = true) :
    delete_contact cid uid (pre ++ c :: post) = (some c, pre ++ post) := by
  induction pre with
  | nil => simp [delete_contact, hc]
  | cons a pre ih =>
    have ha := hpre a (List.mem_cons_self a pre)
    have ih' := ih (fun x hx => hpre x (List.mem_cons_of_mem a hx))
    simp [delete_contact, ha, ih']

theorem applyUpdate_id (c : Contact) (nm ln em ph : String) (bd : Option Date)
    (ds : String) : (applyUpdate c nm ln em ph bd ds).id = c.id := rfl

theorem applyUpdate_user_id (c : Contact) (nm ln em ph : String)
    (bd : Option Date) (ds : String) :
    (applyUpdate c nm ln em ph bd ds).user_id = c.user_id := rfl

theorem applyUpdate_empty (c : Contact) :
    applyUpdate c "" "" "" "" none "" = c := rfl

theorem birthdayLoop_eq_filter (today : Date) (l : List Contact)
    (h : ∀ c ∈ l, validReanchor today.year c) :
    birthdayLoop today (addDays6 today) l = some (l.filter (inWindow today)) := by
  induction l with
  | nil => rfl
  | cons c rest ih =>
    have hc : validReanchor today.year c := h c (List.mem_cons_self c rest)
    obtain ⟨bday, hbd⟩ := Option.isSome_iff_exists.mp hc
    have hrest := ih (fun x hx => h x (List.mem_cons_of_mem c hx))
    rw [List.filter_cons]
    simp only [birthdayLoop, hbd, hrest, inWindow]

theorem birthdayLoop_subset {today week : Date} :
    ∀ {l res : List Contact}, birthdayLoop today week l = some res →
      ∀ r ∈ res, r ∈ l := by
  intro l
  induction l with
  | nil =>
    intro res h r hr
    simp only [birthdayLoop, Option.some.injEq] at h
    subst h
    cases hr
  | cons c rest ih =>
    intro res h r hr
    rw [birthdayLoop] at h
    cases hm : mkDate today.year c.born_date.month c.born_date.day with
    | none => rw [hm] at h; cases h
    | some bday =>
      rw [hm] at h
      cases ht : birthdayLoop today week rest with
      | none => rw [ht] at h; cases h
      | some tail =>
        rw [ht] at h
        simp only [Option.some.injEq] at h
        subst h
        by_cases hw : (dateLe today bday && dateLe bday week) = true
        · rw [if_pos hw] at hr
          rcases List.mem_cons.mp hr with rfl | hm'
          · exact List.mem_cons_self r rest
          · exact List.mem_cons_of_mem c (ih ht r hm')
        · rw [if_neg hw] at hr
          exact List.mem_cons_of_mem c (ih ht r hr)

/-! ### The claims -/

/-- C6: create/get round-trip — for every owner and every fully-specified
payload, `create` followed by `get` on the returned id yields a Contact equal
in every field to the input payload, plus the newly assigned id and owner. -/
theorem create_get_roundtrip (m : ContactModel) (uid : Nat) (db : List Contact) :
    get_contact (create_contact m uid db).1.id uid (create_contact m uid db).2 =
      some (create_contact m uid db).1 ∧
    (create_contact m uid db).1.name = m.name ∧
    (create_contact m uid db).1.lastname = m.lastname ∧
    (create_contact m uid db).1.email = m.email ∧
    (create_contact m uid db).1.phone = m.phone ∧
    (create_contact m uid db).1.born_date = m.born_date ∧
    (create_contact m uid db).1.description = m.description ∧
    (create_contact m uid db).1.user_id = uid := by
  refine ⟨?_, rfl, rfl, rfl, rfl, rfl, rfl, rfl⟩
  have hnone : db.find? (fun c => c.id == nextId db && c.user_id == uid) = none := by
    rw [List.find?_eq_none]
    intro x hx hpx
    simp only [Bool.and_eq_true, beq_iff_eq] at hpx
    exact absurd hpx.1 (Nat.ne_of_lt (id_lt_nextId hx))
  show get_contact (nextId db) uid (db ++ [_]) = _
  rw [get_contact, List.find?_append, hnone]
  simp only [Option.none_or, List.find?_singleton]
  rw [if_pos (by simp)]
  rfl

/-- C4: search priority — with a name supplied, `search_data` matches on
exact name equality only, its result independent of the supplied lastname
and email; else lastname alone; else email alone. -/
theorem search_priority (uid : Nat) (db : List Contact)
    (nm ln em ln' em' : String) :
    (nm ≠ "" →
      search_data uid db nm ln em =
        db.find? (fun c => c.name == nm && c.user_id == uid) ∧
      search_data uid db nm ln em = search_data uid db nm ln' em') ∧
    (nm = "" → ln ≠ "" →
      search_data uid db nm ln em =
        db.find? (fun c => c.lastname == ln && c.user_id == uid)) ∧
    (nm = "" → ln = "" → em ≠ "" →
      search_data uid db nm ln em =
        db.find? (fun c => c.email == em && c.user_id == uid)) := by
  refine ⟨fun h => ⟨?_, ?_⟩, fun h1 h2 => ?_, fun h1 h2 h3 => ?_⟩ <;>
    simp [search_data, *]

/-- C4 witness: a stored contact named Bill is returned even when the
supplied lastname and email do not match it. -/
theorem search_priority_witness :
    "Bill" ≠ "" ∧
    search_data 1 [ann, bill] "Bill" "X" "y@z.com" = some bill ∧
    search_data 1 [ann, bill] "Bill" "X" "y@z.com" =
      search_data 1 [ann, bill] "Bill" "" "" := by
  refine ⟨by decide, ?_, ?_⟩
  · exact ((search_priority 1 [ann, bill] "Bill" "X" "y@z.com" "" "").1
      (by decide)).1.trans (by decide)
  · exact ((search_priority 1 [ann, bill] "Bill" "X" "y@z.com" "" "").1
      (by decide)).2

/-- C8: search signals NotFound exactly when no criterion is supplied or
when no owned row matches the single selected criterion. -/
theorem search_notfound_iff (uid : Nat) (db : List Contact)
    (nm ln em : String) :
    search_data uid db nm ln em = none ↔
      (nm = "" ∧ ln = "" ∧ em = "") ∨
      (nm ≠ "" ∧ ∀ c ∈ db, ¬(c.name = nm ∧ c.user_id = uid)) ∨
      (nm = "" ∧ ln ≠ "" ∧ ∀ c ∈ db, ¬(c.lastname = ln ∧ c.user_id = uid)) ∨
      (nm = "" ∧ ln = "" ∧ em ≠ "" ∧
        ∀ c ∈ db, ¬(c.email = em ∧ c.user_id = uid)) := by
  by_cases h1 : nm = "" <;> by_cases h2 : ln = "" <;> by_cases h3 : em = "" <;>
    simp [search_data, h1, h2, h3, List.find?_eq_none]

/-- C3: truthiness merge — for an existing (contactId, ownerId) contact,
`update_contact` returns the stored row rewritten field by field, where
each field is overwritten exactly when its supplied value is non-empty and
kept otherwise; with every field absent or empty the row and the store are
unchanged. -/
theorem update_truthiness (cid uid : Nat) (db : List Contact) (c : Contact)
    (nm ln em ph : String) (bd : Option Date) (ds : String)
    (h : get_contact cid uid db = some c) :
    (update_contact cid uid db nm ln em ph bd ds).1 =
      some (applyUpdate c nm ln em ph bd ds) ∧
    (applyUpdate c nm ln em ph bd ds).name =
      (if nm = "" then c.name else nm) ∧
    (applyUpdate c nm ln em ph bd ds).lastname =
      (if ln = "" then c.lastname else ln) ∧
    (applyUpdate c nm ln em ph bd ds).email =
      (if em = "" then c.email else em) ∧
    (applyUpdate c nm ln em ph bd ds).phone =
      (if ph = "" then c.phone else ph) ∧
    (applyUpdate c nm ln em ph bd ds).born_date =
      (match bd with | some d => d | none => c.born_date) ∧
    (applyUpdate c nm ln em ph bd ds).description =
      (if ds = "" then c.description else ds) ∧
    update_contact cid uid db "" "" "" "" none "" = (some c, db) := by
  obtain ⟨hid, huid, pre, post, hdb, hpre⟩ := get_contact_split h
  have hc : (c.id == cid && c.user_id == uid) = true := by simp [hid, huid]
  refine ⟨?_, ?_, ?_, ?_, ?_, rfl, ?_, ?_⟩
  · rw [hdb, update_contact_append cid uid pre post c nm ln em ph bd ds hpre hc]
  · by_cases hnm : nm = "" <;> simp [applyUpdate, hnm]
  · by_cases hln : ln = "" <;> simp [applyUpdate, hln]
  · by_cases hem : em = "" <;> simp [applyUpdate, hem]
  · by_cases hph : ph = "" <;> simp [applyUpdate, hph]
  · by_cases hds : ds = "" <;> simp [applyUpdate, hds]
  · rw [hdb, update_contact_append cid uid pre post c "" "" "" "" none "" hpre hc,
      applyUpdate_empty]

/-- C3 witness: updating Ann with only a new name changes the name and
nothing else; the all-empty update leaves row and store unchanged. -/
theorem update_truthiness_witness :
    get_contact 1 1 sampleDb = some ann ∧
    (update_contact 1 1 sampleDb "Zoe" "" "" "" none "").1 =
      some (applyUpdate ann "Zoe" "" "" "" none "") ∧
    (applyUpdate ann "Zoe" "" "" "" none "").name = "Zoe" ∧
    (applyUpdate ann "Zoe" "" "" "" none "").lastname = ann.lastname ∧
    update_contact 1 1 sampleDb "" "" "" "" none "" = (some ann, sampleDb) := by
  have h : get_contact 1 1 sampleDb = some ann := by decide
  have happ := update_truthiness 1 1 sampleDb ann "Zoe" "" "" "" none "" h
  exact ⟨h, happ.1, happ.2.1.trans (by decide), happ.2.2.1.trans (by decide),
    happ.2.2.2.2.2.2.2⟩

/-- C7: delete semantics — under primary-key integrity, a miss leaves the
store untouched and signals NotFound, while a hit returns the deleted row
and a subsequent `get_contact` on the same id signals NotFound. -/
theorem delete_semantics (cid uid : Nat) (db : List Contact)
    (hu : IdsUnique db) :
    (get_contact cid uid db = none → delete_contact cid uid db = (none, db)) ∧
    ∀ c, get_contact cid uid db = some c →
      (delete_contact cid uid db).1 = some c ∧
      get_contact cid uid (delete_contact cid uid db).2 = none := by
  refine ⟨delete_contact_of_not_found cid uid db, fun c h => ?_⟩
  obtain ⟨hid, huid, pre, post, hdb, hpre⟩ := get_contact_split h
  have hc : (c.id == cid && c.user_id == uid) = true := by simp [hid, huid]
  have hdel := delete_contact_append cid uid pre post c hpre hc
  subst hdb
  rw [hdel]
  refine ⟨rfl, ?_⟩
  rw [get_contact_eq_none]
  rintro x hx ⟨hx1, hx2⟩
  rcases List.mem_append.mp hx with hxp | hxq
  · have := hpre x hxp
    simp [hx1, hx2] at this
  · have hnodup : ((pre ++ c :: post).map (fun c => c.id)).Nodup := hu
    rw [List.map_append, List.map_cons, List.nodup_append] at hnodup
    have hcpost : c.id ∉ post.map (fun c => c.id) :=
      (List.nodup_cons.mp hnodup.2.1).1
    exact hcpost (by
      have hxc : x.id = c.id := hx1.trans hid.symm
      rw [← hxc]
      exact List.mem_map_of_mem _ hxq)

/-- C7 witness: deleting Ann from the sample store returns her row and a
subsequent lookup misses; a miss leaves the store unchanged. -/
theorem delete_semantics_witness :
    IdsUnique sampleDb ∧
    get_contact 99 1 sampleDb = none ∧
    delete_contact 99 1 sampleDb = (none, sampleDb) ∧
    get_contact 1 1 sampleDb = some ann ∧
    (delete_contact 1 1 sampleDb).1 = some ann ∧
    get_contact 1 1 (delete_contact 1 1 sampleDb).2 = none := by
  have hu : IdsUnique sampleDb := by unfold IdsUnique; decide
  have h1 := (delete_semantics 99 1 sampleDb hu).1 (by decide)
  have h2 := (delete_semantics 1 1 sampleDb hu).2 ann (by decide)
  exact ⟨hu, by decide, h1, by decide, h2.1, h2.2⟩

/-- C9: frame effect — a (contactId, ownerId) miss leaves the store
completely unchanged under both `update_contact` and `delete_contact`;
a hit on the row `c` sitting between unmatched prefix `pre` and suffix
`post` rewrites or removes exactly that row, with `pre` and `post`
bit-for-bit unchanged. -/
theorem update_delete_frame (cid uid : Nat) (db pre post : List Contact)
    (c : Contact) (nm ln em ph : String) (bd : Option Date) (ds : String) :
    (get_contact cid uid db = none →
      update_contact cid uid db nm ln em ph bd ds = (none, db) ∧
      delete_contact cid uid db = (none, db)) ∧
    (db = pre ++ c :: post →
      (∀ x ∈ pre, (x.id == cid && x.user_id == uid) = false) →
      (c.id == cid && c.user_id == uid) = true →
      update_contact cid uid db nm ln em ph bd ds =
        (some (applyUpdate c nm ln em ph bd ds),
         pre ++ applyUpdate c nm ln em ph bd ds :: post) ∧
      delete_contact cid uid db = (some c, pre ++ post)) := by
  refine ⟨fun h => ⟨update_contact_of_not_found cid uid db nm ln em ph bd ds h,
    delete_contact_of_not_found cid uid db h⟩, fun hdb hpre hc => ?_⟩
  subst hdb
  exact ⟨update_contact_append cid uid pre post c nm ln em ph bd ds hpre hc,
    delete_contact_append cid uid pre post c hpre hc⟩

/-- C9 witness: a miss (id 99) leaves the sample store unchanged; a hit on
Bob rewrites exactly his row between the untouched Ann and Eve. -/
theorem update_delete_frame_witness :
    get_contact 99 1 sampleDb = none ∧
    update_contact 99 1 sampleDb "Zoe" "" "" "" none "" = (none, sampleDb) ∧
    delete_contact 99 1 sampleDb = (none, sampleDb) ∧
    update_contact 2 1 sampleDb "Zoe" "" "" "" none "" =
      (some (applyUpdate bob "Zoe" "" "" "" none ""),
       [ann] ++ applyUpdate bob "Zoe" "" "" "" none "" :: [eve]) ∧
    delete_contact 2 1 sampleDb = (some bob, [ann] ++ [eve]) := by
  have h1 := (update_delete_frame 99 1 sampleDb [] [] ann "Zoe" "" "" "" none "").1
    (by decide)
  have h2 := (update_delete_frame 2 1 sampleDb [ann] [eve] bob "Zoe" "" "" ""
    none "").2 (by decide) (by decide) (by decide)
  exact ⟨by decide, h1.1, h1.2, h2.1, h2.2⟩

/-- C2 counterexample: for an owner whose only contact is born on
February 29, evaluated in the non-leap year 2026, the operation faults
instead of returning the in-window subset (here empty): the claim fails
without a precondition on the re-anchoring. -/
theorem birthday_window_feb29_cex :
    birthday_to_week 1 [feb29] ⟨2026, 2, 25⟩ = BdayResult.fault ∧
    birthday_to_week 1 [feb29] ⟨2026, 2, 25⟩ ≠
      BdayResult.ok ((get_contacts 1 [feb29]).filter (inWindow ⟨2026, 2, 25⟩)) := by
  decide

/-- C2 (amended with the re-anchoring precondition): for every owner with
at least one contact, all of whose stored (month, day) pairs re-anchor to
constructible dates of the current year, `birthday_to_week` returns exactly
the owned contacts whose re-anchored birthday lies in
`[today, today + 6 days]`, in the owner's store order. -/
theorem birthday_window_membership (uid : Nat) (db : List Contact)
    (today : Date)
    (hvalid : ∀ c ∈ get_contacts uid db, validReanchor today.year c)
    (hne : get_contacts uid db ≠ []) :
    birthday_to_week uid db today =
      BdayResult.ok ((get_contacts uid db).filter (inWindow today)) := by
  rw [birthday_to_week, if_neg, birthdayLoop_eq_filter today _ hvalid]
  rwa [List.isEmpty_eq_true]

/-- C2 witness: with today = 2024-06-01, owner 1's store holds Ann
(born June 3, included) and Bob (born June 10, excluded). -/
theorem birthday_window_membership_witness :
    (∀ c ∈ get_contacts 1 sampleDb, validReanchor (2024 : Nat) c) ∧
    get_contacts 1 sampleDb ≠ [] ∧
    birthday_to_week 1 sampleDb ⟨2024, 6, 1⟩ = BdayResult.ok [ann] := by
  refine ⟨by decide, by decide, ?_⟩
  exact (birthday_window_membership 1 sampleDb ⟨2024, 6, 1⟩ (by decide)
    (by decide)).trans (by decide)

/-- C5 counterexample: an owner with one contact (born February 29) none of
whose re-anchored birthdays falls in the window, evaluated in the non-leap
year 2025, gets a fault rather than the claimed empty, non-error sequence. -/
theorem birthday_window_notfound_cex :
    get_contacts 1 [feb29] ≠ [] ∧
    (∀ c ∈ get_contacts 1 [feb29], inWindow ⟨2025, 3, 1⟩ c = false) ∧
    birthday_to_week 1 [feb29] ⟨2025, 3, 1⟩ ≠ BdayResult.ok [] ∧
    birthday_to_week 1 [feb29] ⟨2025, 3, 1⟩ = BdayResult.fault := by
  decide

/-- C5 (amended with the re-anchoring precondition on the non-error half):
an owner with zero contacts gets the distinct no-contacts sentinel, while an
owner with contacts, all re-anchorable and none in-window, gets the empty,
non-error sequence. -/
theorem birthday_window_empty_cases (uid : Nat) (db : List Contact)
    (today : Date) :
    (get_contacts uid db = [] → birthday_to_week uid db today =
      BdayResult.noContacts) ∧
    (get_contacts uid db ≠ [] →
      (∀ c ∈ get_contacts uid db, validReanchor today.year c) →
      (∀ c ∈ get_contacts uid db, inWindow today c = false) →
      birthday_to_week uid db today = BdayResult.ok []) := by
  constructor
  · intro h
    rw [birthday_to_week, if_pos]
    rwa [List.isEmpty_eq_true]
  · intro hne hv hw
    have hfil : (get_contacts uid db).filter (inWindow today) = [] := by
      rw [List.filter_eq_nil_iff]
      intro a ha
      simp [hw a ha]
    rw [birthday_to_week, if_neg, birthdayLoop_eq_filter today _ hv, hfil]
    rwa [List.isEmpty_eq_true]

/-- C5 witness: owner 5 owns nothing and gets the no-contacts sentinel;
owner 2 owns only Eve (born December 25, outside the June window) and gets
the empty list. -/
theorem birthday_window_empty_cases_witness :
    get_contacts 5 sampleDb = [] ∧
    birthday_to_week 5 sampleDb ⟨2024, 6, 1⟩ = BdayResult.noContacts ∧
    get_contacts 2 sampleDb ≠ [] ∧
    (∀ c ∈ get_contacts 2 sampleDb, inWindow ⟨2024, 6, 1⟩ c = false) ∧
    birthday_to_week 2 sampleDb ⟨2024, 6, 1⟩ = BdayResult.ok [] := by
  refine ⟨by decide, ?_, by decide, by decide, ?_⟩
  · exact (birthday_window_empty_cases 5 sampleDb ⟨2024, 6, 1⟩).1 (by decide)
  · exact (birthday_window_empty_cases 2 sampleDb ⟨2024, 6, 1⟩).2 (by decide)
      (by decide) (by decide)

/-- C10: re-anchoring safety — when every contact owned by the caller has a
(month, day) pair that forms a valid date of the current year, the date
construction inside `birthday_to_week` never faults. -/
theorem birthday_reanchor_safety (uid : Nat) (db : List Contact)
    (today : Date)
    (h : ∀ c ∈ db, c.user_id = uid → validReanchor today.year c) :
    birthday_to_week uid db today ≠ BdayResult.fault := by
  rw [birthday_to_week]
  by_cases he : (get_contacts uid db).isEmpty
  · rw [if_pos he]
    exact fun hcon => BdayResult.noConfusion hcon
  · rw [if_neg he]
    have hv : ∀ c ∈ get_contacts uid db, validReanchor today.year c := by
      intro c hc
      rw [get_contacts] at hc
      have hm := List.mem_filter.mp hc
      exact h c hm.1 (by simpa using hm.2)
    rw [birthdayLoop_eq_filter today _ hv]
    exact fun hcon => BdayResult.noConfusion hcon

/-- C10 witness: all of owner 1's contacts in the sample store re-anchor to
valid 2024 dates, so the operation returns without fault. -/
theorem birthday_reanchor_safety_witness :
    (∀ c ∈ sampleDb, c.user_id = 1 → validReanchor (2024 : Nat) c) ∧
    birthday_to_week 1 sampleDb ⟨2024, 6, 1⟩ ≠ BdayResult.fault :=
  ⟨by decide, birthday_reanchor_safety 1 sampleDb ⟨2024, 6, 1⟩ (by decide)⟩

/-- C1: ownership isolation — under primary-key integrity, a contact owned
by A is invisible to a different caller B through `get_contact`; every
contact that `get_contact`, `search_data` or `birthday_to_week` yields to B
is owned by B; and `update_contact` and `delete_contact` called by B leave
the contacts of every other owner bit-for-bit unchanged. -/
theorem ownership_isolation (db : List Contact) (A B cid : Nat)
    (nm ln em : String) (today : Date) :
    (IdsUnique db → A ≠ B → ∀ c ∈ db, c.user_id = A →
      get_contact c.id B db = none) ∧
    (∀ r, get_contact cid B db = some r → r.user_id = B) ∧
    (∀ r, search_data B db nm ln em = some r → r.user_id = B) ∧
    (∀ res, birthday_to_week B db today = BdayResult.ok res →
      ∀ r ∈ res, r.user_id = B) ∧
    (∀ nm' ln' em' ph' bd' ds',
      (update_contact cid B db nm' ln' em' ph' bd' ds').2.filter
          (fun c => !(c.user_id == B)) =
        db.filter (fun c => !(c.user_id == B))) ∧
    (delete_contact cid B db).2.filter (fun c => !(c.user_id == B)) =
      db.filter (fun c => !(c.user_id == B)) := by
  refine ⟨?_, ?_, ?_, ?_, ?_, ?_⟩
  · intro hu hAB c hc hcA
    rw [get_contact_eq_none]
    rintro x hx ⟨hx1, hx2⟩
    have hxc : x = c := hu.eq_of_id_eq hx hc hx1
    subst hxc
    exact hAB (hcA.symm.trans hx2)
  · intro r hr
    have hp := List.find?_some hr
    simp only [Bool.and_eq_true, beq_iff_eq] at hp
    exact hp.2
  · intro r hr
    rw [search_data] at hr
    split_ifs at hr
    all_goals
      first
        | exact Option.noConfusion hr
        | (have hp := List.find?_some hr;
           simp only [Bool.and_eq_true, beq_iff_eq] at hp;
           exact hp.2)
  · intro res hres r hr
    rw [birthday_to_week] at hres
    by_cases he : (get_contacts B db).isEmpty
    · rw [if_pos he] at hres
      exact BdayResult.noConfusion hres
    · rw [if_neg he] at hres
      cases hloop : birthdayLoop today (addDays6 today) (get_contacts B db) with
      | none =>
        rw [hloop] at hres
        exact BdayResult.noConfusion hres
      | some l =>
        rw [hloop] at hres
        injection hres with hlr
        subst hlr
        have hrl : r ∈ get_contacts B db := birthdayLoop_subset hloop r hr
        rw [get_contacts] at hrl
        have hm := List.mem_filter.mp hrl
        simpa using hm.2
  · intro nm' ln' em' ph' bd' ds'
    cases hget : get_contact cid B db with
    | none =>
      rw [update_contact_of_not_found cid B db nm' ln' em' ph' bd' ds' hget]
    | some c =>
      obtain ⟨hid, huid, pre, post, hdb, hpre⟩ := get_contact_split hget
      subst hdb
      rw [update_contact_append cid B pre post c nm' ln' em' ph' bd' ds' hpre
        (by simp [hid, huid])]
      have h1 : (!((applyUpdate c nm' ln' em' ph' bd' ds').user_id == B)) =
          false := by
        rw [applyUpdate_user_id]
        simp [huid]
      have h2 : (!(c.user_id == B)) = false := by simp [huid]
      simp [List.filter_append, List.filter_cons, h1, h2]
  · cases hget : get_contact cid B db with
    | none => rw [delete_contact_of_not_found cid B db hget]
    | some c =>
      obtain ⟨hid, huid, pre, post, hdb, hpre⟩ := get_contact_split hget
      subst hdb
      rw [delete_contact_append cid B pre post c hpre (by simp [hid, huid])]
      have h2 : (!(c.user_id == B)) = false := by simp [huid]
      simp [List.filter_append, List.filter_cons, h2]

/-- C1 witness: in the sample store, caller 2 cannot see Ann (owned by 1);
everything caller 2 reads — by id, by search, or through the birthday
window — is owned by 2; and caller 2's update and delete leave the
contacts of other owners untouched. -/
theorem ownership_isolation_witness :
    get_contact ann.id 2 sampleDb = none ∧
    eve.user_id = 2 ∧
    eve.user_id = 2 ∧
    (∀ r ∈ [eve], r.user_id = 2) ∧
    (update_contact 3 2 sampleDb "Zoe" "" "" "" none "").2.filter
        (fun c => !(c.user_id == 2)) =
      sampleDb.filter (fun c => !(c.user_id == 2)) ∧
    (delete_contact 3 2 sampleDb).2.filter (fun c => !(c.user_id == 2)) =
      sampleDb.filter (fun c => !(c.user_id == 2)) := by
  have H := ownership_isolation sampleDb 1 2 3 "Eve" "" "" ⟨2024, 12, 24⟩
  exact ⟨H.1 (by decide) (by decide) ann (by decide) (by decide),
    H.2.1 eve (by decide),
    H.2.2.1 eve (by decide),
    H.2.2.2.1 [eve] (by decide),
    H.2.2.2.2.1 "Zoe" "" "" "" none "",
    H.2.2.2.2.2⟩

end ContactDir
